import Mathlib

/-!
Verification of the FWUP host-side uploader (`pico_flash_uploader.py`).

The Python source is shallowly embedded below.  Transport reads are modelled
as a `ReadOutcome` (either bytes delivered or a `USBError` carrying an
`errno`); time-dependent loops are modelled over explicit scripts (lists of
per-iteration transport outcomes), with `none` results standing for "the
loop is still running after the script is exhausted".  Machine integers are
`Nat` with explicit `% 256` / `% 2 ^ 32` arithmetic.
-/

namespace PicoFlashUploader

/-- A USB transport error as raised by the backend (`usb.core.USBError`).
Only the `errno` attribute is inspected by the uploader. -/
structure USBError where
  errno : Option Int
deriving DecidableEq, Repr

/-- Outcome of one `in_ep.read(...)` call: either the delivered bytes or a
raised `USBError`. -/
inductive ReadOutcome where
  | ok (data : List Nat)
  | err (e : USBError)
deriving DecidableEq, Repr

/-- A read that raises `usb.core.USBError` with `errno == 110`
("Operation timed out"), the transport's distinguished timeout report. -/
def timeoutRead : ReadOutcome := .err ⟨some 110⟩

/-! ## UTF-8 decoding with `errors="ignore"`  (`bytes(data).decode("utf-8", errors="ignore")`) -/

/-- Valid first continuation byte ranges for a three-byte UTF-8 lead. -/
def cont1ok3 (b b1 : Nat) : Prop :=
  (b = 0xE0 ∧ 0xA0 ≤ b1 ∧ b1 ≤ 0xBF) ∨
  (b = 0xED ∧ 0x80 ≤ b1 ∧ b1 ≤ 0x9F) ∨
  (b ≠ 0xE0 ∧ b ≠ 0xED ∧ 0x80 ≤ b1 ∧ b1 ≤ 0xBF)

instance (b b1 : Nat) : Decidable (cont1ok3 b b1) := by
  unfold cont1ok3; infer_instance

/-- Valid first continuation byte ranges for a four-byte UTF-8 lead. -/
def cont1ok4 (b b1 : Nat) : Prop :=
  (b = 0xF0 ∧ 0x90 ≤ b1 ∧ b1 ≤ 0xBF) ∨
  (b = 0xF4 ∧ 0x80 ≤ b1 ∧ b1 ≤ 0x8F) ∨
  (0xF1 ≤ b ∧ b ≤ 0xF3 ∧ 0x80 ≤ b1 ∧ b1 ≤ 0xBF)

instance (b b1 : Nat) : Decidable (cont1ok4 b b1) := by
  unfold cont1ok4; infer_instance

/-- Plain continuation byte. -/
def isContByte (b : Nat) : Prop := 0x80 ≤ b ∧ b ≤ 0xBF

instance (b : Nat) : Decidable (isContByte b) := by
  unfold isContByte; infer_instance

/-- Decode one UTF-8 sequence starting at byte `b` with lookahead `rest`.
Returns the decoded character (or `none` when the sequence is invalid, as
skipped by `errors="ignore"`) and how many bytes of `rest` were consumed. -/
def utf8Step (b : Nat) (rest : List Nat) : Option Char × Nat :=
  if b < 0x80 then (some (Char.ofNat b), 0)
  else if 0xC2 ≤ b ∧ b ≤ 0xDF then
    match rest with
    | b1 :: _ =>
      if isContByte b1 then (some (Char.ofNat ((b - 0xC0) * 0x40 + (b1 - 0x80))), 1)
      else (none, 0)
    | [] => (none, 0)
  else if 0xE0 ≤ b ∧ b ≤ 0xEF then
    match rest with
    | b1 :: b2 :: _ =>
      if cont1ok3 b b1 ∧ isContByte b2 then
        (some (Char.ofNat ((b - 0xE0) * 0x1000 + (b1 - 0x80) * 0x40 + (b2 - 0x80))), 2)
      else if cont1ok3 b b1 then (none, 1)
      else (none, 0)
    | [b1] => if cont1ok3 b b1 then (none, 1) else (none, 0)
    | [] => (none, 0)
  else if 0xF0 ≤ b ∧ b ≤ 0xF4 then
    match rest with
    | b1 :: b2 :: b3 :: _ =>
      if cont1ok4 b b1 ∧ isContByte b2 ∧ isContByte b3 then
        (some (Char.ofNat
          ((b - 0xF0) * 0x40000 + (b1 - 0x80) * 0x1000 + (b2 - 0x80) * 0x40 + (b3 - 0x80))), 3)
      else if cont1ok4 b b1 ∧ isContByte b2 then (none, 2)
      else if cont1ok4 b b1 then (none, 1)
      else (none, 0)
    | [b1, b2] =>
      if cont1ok4 b b1 ∧ isContByte b2 then (none, 2)
      else if cont1ok4 b b1 then (none, 1)
      else (none, 0)
    | [b1] => if cont1ok4 b b1 then (none, 1) else (none, 0)
    | [] => (none, 0)
  else (none, 0)

/-- Fuel-indexed worker for `utf8DecodeIgnore`; one unit of fuel per input
byte suffices since every step consumes at least the current byte. -/
def utf8DecodeIgnoreAux : Nat → List Nat → List Char
  | 0, _ => []
  | _, [] => []
  | fuel + 1, b :: rest =>
    match utf8Step b rest with
    | (some c, k) => c :: utf8DecodeIgnoreAux fuel (rest.drop k)
    | (none, k) => utf8DecodeIgnoreAux fuel (rest.drop k)

/-- `bytes(data).decode("utf-8", errors="ignore")`: decode, dropping invalid
sequences instead of failing. -/
def utf8DecodeIgnore (data : List Nat) : List Char :=
  utf8DecodeIgnoreAux data.length data

/-- Whitespace stripped by `str.strip()` (the ASCII subset, which covers all
protocol traffic in this program). -/
def isPySpace (c : Char) : Bool :=
  c = ' ' || c = '\t' || c = '\n' || c = '\r' || c.toNat = 0x0b || c.toNat = 0x0c

/-- `str.strip()`: remove leading and trailing whitespace. -/
def pyStrip (l : List Char) : List Char :=
  ((l.dropWhile isPySpace).reverse.dropWhile isPySpace).reverse

/-- ASCII text rendered as the byte list a device read would deliver. -/
def asciiBytes (s : String) : List Nat := s.data.map Char.toNat

/-! ## `read_status` (source lines 103–128) -/

/-- `read_status(in_ep, timeout, suppress_exceptions)`: one timed read.
Delivered bytes are decoded (UTF-8, ignoring errors) and stripped; the code
returns `msg or None`, so empty reads and whitespace-only reads yield `None`.
A raised `USBError` with `errno` of `None`, 110 or 60 is treated as a
timeout and suppressed (when `suppress_exceptions`); any other error
re-raises. -/
def read_status (r : ReadOutcome) (suppress_exceptions : Bool) :
    Except USBError (Option (List Char)) :=
  match r with
  | .ok data =>
    if data.isEmpty then .ok none
    else
      let msg := pyStrip (utf8DecodeIgnore data)
      .ok (if msg.isEmpty then none else some msg)
  | .err exc =>
    if suppress_exceptions ∧ exc.errno = none then .ok none
    else if suppress_exceptions ∧ (exc.errno = some 110 ∨ exc.errno = some 60) then .ok none
    else .error exc

/-! ## `end_index` (source lines 130–135) -/

/-- Index of the last occurrence of `target` in `buffer`
(`buffer.rindex(target)`), meaningful when `target` occurs. -/
def rindexOf (buffer target : List Char) : Nat :=
  Nat.findGreatest (fun i => target <+: buffer.drop i) buffer.length

/-- `end_index(buffer, target)`: `None` when `target` is not in `buffer`,
otherwise the pair `(rindex, rindex + len(target))` around the last
occurrence. -/
def end_index (buffer target : List Char) : Option (Nat × Nat) :=
  if target <:+: buffer then
    some (rindexOf buffer target, rindexOf buffer target + target.length)
  else none

/-! ## `wait_for_status` (source lines 137–152) -/

/-- What `wait_for_status` has in hand when its while-loop exits. -/
structure WaitExit where
  /-- The local `status_buffer` at loop exit; it contains the target. -/
  buf : List Char
  /-- The local buffer after `status_buffer[target_slice_end:]`.  The Python
  function computes this but returns `None`, so the value never reaches the
  caller. -/
  trimmed : List Char
  /-- Transport reads not consumed by this wait. -/
  rest : List ReadOutcome
deriving DecidableEq, Repr

/-- `wait_for_status(status_buffer, target_string, in_ep, timeout, delay)`.
The loop is driven by the script `polls` of successive transport read
outcomes; `.ok none` means the script ran out while the loop was still
waiting (a timed-out poll merely sleeps `delay` and retries, with no overall
deadline).  A non-timeout `USBError` propagates. -/
def wait_for_status (status_buffer target : List Char) (polls : List ReadOutcome) :
    Except USBError (Option WaitExit) :=
  if target <:+: status_buffer then
    match end_index status_buffer target with
    | some (_s, e) => .ok (some ⟨status_buffer, status_buffer.drop e, polls⟩)
    | none => .ok none
  else
    match polls with
    | [] => .ok none
    | p :: rest =>
      match read_status p true with
      | .error e => .error e
      | .ok (some s) => wait_for_status (status_buffer ++ s) target rest
      | .ok none => wait_for_status status_buffer target rest

/-- Texts actually returned by the polls of a script, in order (timed-out
polls contribute nothing). -/
def pollsTexts (polls : List ReadOutcome) : List (List Char) :=
  polls.filterMap fun p =>
    match read_status p true with
    | .ok s => s
    | .error _ => none

/-- A poll outcome that does not raise out of `read_status`. -/
def pollOk (p : ReadOutcome) : Bool :=
  match read_status p true with
  | .error _ => false
  | .ok _ => true

/-! ## The inlined `HEADER_OK` wait (source lines 202–212) -/

/-- Errors the inlined header wait can raise. -/
inductive PyError where
  /-- A propagated `usb.core.USBError`. -/
  | usb (e : USBError)
  /-- `NameError`: line 210 calls bare `sleep(0.1)`, but only `time` is
  imported, so the name `sleep` is unbound. -/
  | nameError
deriving DecidableEq, Repr

/-- The inlined wait for `"HEADER_OK {total_len}"` in `upload_file`.  It is
a copy of `wait_for_status` except that its timed-out-poll branch executes
`sleep(0.1)` with `sleep` undefined, raising `NameError`.  On success the
trimmed buffer is returned (here the trim really does update
`upload_file`'s own `status_buffer`). -/
def header_wait (status_buffer target : List Char) (polls : List ReadOutcome) :
    Except PyError (Option (List Char)) :=
  if target <:+: status_buffer then
    match end_index status_buffer target with
    | some (_s, e) => .ok (some (status_buffer.drop e))
    | none => .ok none
  else
    match polls with
    | [] => .ok none
    | p :: rest =>
      match read_status p true with
      | .error e => .error (.usb e)
      | .ok (some s) => header_wait (status_buffer ++ s) target rest
      | .ok none => .error .nameError

/-! ## The erase handshake (source lines 220–222) -/

/-- Lines 220–222 of `upload_file`:
`wait_for_status(status_buffer, "ERASE_START", ...)` followed by
`wait_for_status(status_buffer, "ERASE_DONE", ...)`.  `wait_for_status`
returns `None` and its result is discarded, so the second call receives the
caller's `status_buffer` unchanged — not the buffer trimmed inside the
first call. -/
def erase_phase (status_buffer : List Char) (polls : List ReadOutcome) :
    Except USBError (Option (WaitExit × Option WaitExit)) :=
  match wait_for_status status_buffer ("ERASE_START".data) polls with
  | .error e => .error e
  | .ok none => .ok none
  | .ok (some ex1) =>
    match wait_for_status status_buffer ("ERASE_DONE".data) ex1.rest with
    | .error e => .error e
    | .ok r2 => .ok (some (ex1, r2))

example :
    read_status (.ok (asciiBytes "HEADER_OK 16")) true = .ok (some ("HEADER_OK 16".data)) := by
  rfl

example : read_status (.ok [32]) true = .ok none := by rfl

example : read_status timeoutRead true = .ok none := by rfl

example : read_status (.err ⟨some 5⟩) true = .error ⟨some 5⟩ := by rfl

example : end_index ("MARKERxyzMARKERabc".data) ("MARKER".data) = some (9, 15) := by decide

example :
    wait_for_status [] ("HEADER_OK 10".data)
      [.ok (asciiBytes "HEAD"), .ok (asciiBytes "ER_OK 10")] =
    .ok (some ⟨"HEADER_OK 10".data, [], []⟩) := by rfl

example :
    header_wait [] ("HEADER_OK 16".data) [timeoutRead] = .error .nameError := by rfl

/-! ## Header construction (source lines 183–185) -/

/-- The bytes of the ASCII magic `b"FWUP"`. -/
def fwupMagic : List Nat := [0x46, 0x57, 0x55, 0x50]

/-- `struct.pack("<I", n)`: the four little-endian bytes of `n`; `struct`
raises when `n` does not fit an unsigned 32-bit integer. -/
def struct_pack_u32le (n : Nat) : Option (List Nat) :=
  if n < 2 ^ 32 then
    some [n % 256, n / 256 % 256, n / 256 ^ 2 % 256, n / 256 ^ 3 % 256]
  else none

/-- `header = b"FWUP" + struct.pack("<I", total_len)`. -/
def header (total_len : Nat) : Option (List Nat) :=
  (struct_pack_u32le total_len).map fun packed => fwupMagic ++ packed

/-! ## Chunked transmission (source lines 228–233) -/

/-- The chunk loop under a transport that reports every chunk fully written
(`out_ep.write(chunk, timeout)` returns `len(chunk)`), recorded as the list
of `(bytes_sent, chunk)` writes in order.  The source loop guard is
`bytes_sent < total_len`; the extra `0 < chunk_size` in the guard is needed
for this equation to terminate — the `chunk_size = 0` case is modelled by
`chunk_loop_fuel` below, where it indeed never terminates. -/
def chunk_writes (data : List Nat) (chunk_size : Nat) (bytes_sent : Nat) :
    List (Nat × List Nat) :=
  if _h : bytes_sent < data.length ∧ 0 < chunk_size then
    let chunk := (data.drop bytes_sent).take chunk_size
    (bytes_sent, chunk) :: chunk_writes data chunk_size (bytes_sent + chunk.length)
  else []
termination_by data.length - bytes_sent
decreasing_by
  simp only [List.length_take, List.length_drop]
  omega

/-- The successive write offsets form a chain: each write starts at the
running total, advanced by exactly the reported byte count of the previous
write (here, the previous chunk's length). -/
def chained (b : Nat) : List (Nat × List Nat) → Prop
  | [] => True
  | (o, c) :: rest => o = b ∧ chained (o + c.length) rest

/-- The chunk loop with an arbitrary transport report: `report bytes_sent`
is the value `out_ep.write(data[bytes_sent : bytes_sent + chunk_size],
timeout)` returns at offset `bytes_sent`.  The loop state is `bytes_sent`;
`fuel` bounds the number of iterations inspected, and `none` means the loop
has not terminated within that many iterations. -/
def chunk_loop_fuel (total_len : Nat) (report : Nat → Nat) (bytes_sent : Nat) :
    Nat → Option Nat
  | 0 => none
  | fuel + 1 =>
    if bytes_sent < total_len then
      chunk_loop_fuel total_len report (bytes_sent + report bytes_sent) fuel
    else some bytes_sent

/-! ## The per-chunk best-effort status read (source lines 240–246) -/

/-- Lines 241–244: `try: status = read_status(in_ep, 5, True)` with
`except usb.core.USBError: pass`.  A raised error is swallowed and `status`
keeps its previous value; otherwise `status` becomes whatever `read_status`
returned. -/
def transfer_read (prev : Option (List Char)) (r : ReadOutcome) : Option (List Char) :=
  match read_status r true with
  | .error _ => prev
  | .ok s => s

/-- State of `upload_file` across iterations of the transfer loop. -/
structure TransferState where
  /-- Running total of bytes the transport reported written. -/
  bytes_sent : Nat
  /-- The `status` variable (persists across iterations). -/
  status : Option (List Char)
  /-- The phase-control `status_buffer`; the transfer loop never touches it. -/
  status_buffer : List Char
  /-- Writes issued so far, as `(offset, chunk length)`. -/
  writes : List (Nat × Nat)
  /-- Status texts printed so far. -/
  printed : List (List Char)
deriving DecidableEq, Repr

/-- Transport behaviour for one transfer-loop iteration: the byte count the
chunk write reports, and the outcome of the best-effort status read. -/
structure IterEvent where
  written : Nat
  poll : ReadOutcome
deriving DecidableEq, Repr

/-- The transfer loop (source lines 231–246): while `bytes_sent <
total_len`, slice a chunk, write it (advancing `bytes_sent` by the reported
count), make one best-effort status read, and print `status` when truthy.
`none` means the event script ran out while the loop was still running. -/
def transfer_loop (data : List Nat) (chunk_size : Nat) (events : List IterEvent)
    (st : TransferState) : Option TransferState :=
  if st.bytes_sent < data.length then
    match events with
    | [] => none
    | ev :: rest =>
      let chunk := (data.drop st.bytes_sent).take chunk_size
      let status1 := transfer_read st.status ev.poll
      transfer_loop data chunk_size rest
        { bytes_sent := st.bytes_sent + ev.written
          status := status1
          status_buffer := st.status_buffer
          writes := st.writes ++ [(st.bytes_sent, chunk.length)]
          printed := st.printed ++ (match status1 with | some s => [s] | none => []) }
  else some st

/-! ## The completion wait (source lines 250–266) and run outcome -/

/-- How the `AwaitCompletion` loop ends. -/
inductive CompletionOutcome where
  /-- `read_status` returned a truthy message: `break` with `done_msg`. -/
  | acked (msg : List Char)
  /-- `time.monotonic() - start_time > timeout / 1000.0`: `break` with
  `done_msg = None`. -/
  | timedOut
  /-- The script ran out while the loop was still polling. -/
  | pending
deriving DecidableEq, Repr

/-- The final-status loop: each script entry is one iteration's read outcome
paired with the elapsed wall-clock milliseconds at that iteration's deadline
check.  (`elapsed_seconds > timeout_ms / 1000.0` is modelled as
`timeoutMs < elapsedMs`.)  Timed-out reads are ignored until the deadline
passes. -/
def completion_wait (timeoutMs : Nat) :
    List (ReadOutcome × Nat) → Except USBError CompletionOutcome
  | [] => .ok .pending
  | (r, elapsedMs) :: rest =>
    match read_status r true with
    | .error e => .error e
    | .ok (some s) => .ok (.acked s)
    | .ok none =>
      if timeoutMs < elapsedMs then .ok .timedOut
      else completion_wait timeoutMs rest

/-- Outcome of the whole run as `main` delivers it to the shell. -/
inductive RunOutcome where
  /-- `main` returned this exit code. -/
  | exitCode (n : Nat)
  /-- `main` caught a `usb.core.USBError`, printed it, and re-raised. -/
  | uncaughtUSB (e : USBError)
deriving DecidableEq, Repr

/-- What the run does after the completion wait finishes: a propagated
`USBError` is printed and re-raised by `main`; otherwise `upload_file`
prints either `done` plus the device message or
`"no acknowledgement received (timeout)"`, returns `None`, and `main`
returns 0. -/
def completion_to_run (w : Except USBError CompletionOutcome) : RunOutcome :=
  match w with
  | .error e => .uncaughtUSB e
  | .ok _ => .exitCode 0

example : header 0 = some [0x46, 0x57, 0x55, 0x50, 0, 0, 0, 0] := by decide

example : header 0x12345678 = some [0x46, 0x57, 0x55, 0x50, 0x78, 0x56, 0x34, 0x12] := by decide

example : completion_wait 10000 [(timeoutRead, 300), (timeoutRead, 10001)] = .ok .timedOut := by
  rfl

example :
    completion_wait 10000 [(timeoutRead, 300), (.ok (asciiBytes "OK"), 600)] =
      .ok (.acked "OK".data) := by rfl

example : chunk_loop_fuel 3 (fun _ => 1) 0 4 = some 3 := by rfl

example : chunk_loop_fuel 3 (fun _ => 0) 0 50 = none := by rfl

/-! ## Helper lemmas about `rindexOf` -/

/-- If `target` occurs in `buffer`, it occurs at index `rindexOf`. -/
lemma rindexOf_occurs {buffer target : List Char} (h : target <:+: buffer) :
    target <+: buffer.drop (rindexOf buffer target) := by
  obtain ⟨t, hpre, hsuf⟩ := List.infix_iff_prefix_suffix.mp h
  rw [List.suffix_iff_eq_drop] at hsuf
  have hP : target <+: buffer.drop (buffer.length - t.length) := by
    rw [← hsuf]; exact hpre
  unfold rindexOf
  exact Nat.findGreatest_spec (P := fun i => target <+: buffer.drop i) (Nat.sub_le _ _) hP

/-- No occurrence of `target` strictly after `rindexOf`. -/
lemma rindexOf_last {buffer target : List Char} {j : Nat}
    (hj : rindexOf buffer target < j) (hjb : j ≤ buffer.length) :
    ¬ target <+: buffer.drop j := by
  unfold rindexOf at hj
  exact Nat.findGreatest_is_greatest (P := fun i => target <+: buffer.drop i) hj hjb

/-- A prefix occurrence at `s` decomposes the buffer around it. -/
lemma buffer_decomp {buffer target : List Char} {s : Nat}
    (h : target <+: buffer.drop s) :
    buffer = buffer.take s ++ target ++ buffer.drop (s + target.length) := by
  obtain ⟨u, hu⟩ := h
  have hdrop : buffer.drop (s + target.length) = u := by
    rw [← List.drop_drop, ← hu, List.drop_left]
  rw [hdrop, List.append_assoc, hu, List.take_append_drop]

/-! ## C6 -/

/-- C6: for every buffer containing the marker, the consume step
(`end_index` on the last occurrence, then `buffer[target_slice_end:]`)
removes everything up to and including the LAST occurrence of the marker and
keeps exactly the remainder: the buffer splits as
`take s ++ target ++ rest` with no occurrence after `s`. -/
theorem c6_consume_last (buffer target : List Char) (h : target <:+: buffer) :
    ∃ s rest, end_index buffer target = some (s, s + target.length) ∧
      rest = buffer.drop (s + target.length) ∧
      buffer = buffer.take s ++ target ++ rest ∧
      ∀ j, s < j → j ≤ buffer.length → ¬ target <+: buffer.drop j := by
  refine ⟨rindexOf buffer target, buffer.drop (rindexOf buffer target + target.length),
    ?_, rfl, buffer_decomp (rindexOf_occurs h), fun j hj hjb => rindexOf_last hj hjb⟩
  simp [end_index, h]

/-- Witness for C6 at the concrete buffer of the claim:
`"MARKERxyzMARKERabc"` with marker `"MARKER"`; the second half checks that
the remainder is exactly `"abc"`. -/
theorem c6_consume_last_witness :
    (∃ s rest,
      end_index ("MARKERxyzMARKERabc".data) ("MARKER".data) =
        some (s, s + ("MARKER".data).length) ∧
      rest = ("MARKERxyzMARKERabc".data).drop (s + ("MARKER".data).length) ∧
      "MARKERxyzMARKERabc".data =
        ("MARKERxyzMARKERabc".data).take s ++ "MARKER".data ++ rest ∧
      ∀ j, s < j → j ≤ ("MARKERxyzMARKERabc".data).length →
        ¬ "MARKER".data <+: ("MARKERxyzMARKERabc".data).drop j) ∧
    end_index ("MARKERxyzMARKERabc".data) ("MARKER".data) = some (9, 15) ∧
    ("MARKERxyzMARKERabc".data).drop 15 = "abc".data :=
  ⟨c6_consume_last _ _ (by decide), by decide, by decide⟩

/-! ## C8 -/

/-- C8: for every payload length `L < 2^32` the header is exactly the
8 bytes `"FWUP"` followed by `L` as an unsigned 32-bit little-endian
integer (each byte < 256 and the little-endian recombination gives back
`L`); `L = 0` yields a valid header with a zero length field. -/
theorem c8_header_format (L : Nat) (h : L < 2 ^ 32) :
    header L =
      some (fwupMagic ++ [L % 256, L / 256 % 256, L / 256 ^ 2 % 256, L / 256 ^ 3 % 256]) ∧
    (∀ hd, header L = some hd →
      hd.length = 8 ∧ hd.take 4 = fwupMagic ∧
      (∀ b ∈ hd.drop 4, b < 256) ∧
      (hd.drop 4).foldr (fun b acc => b + 256 * acc) 0 = L) ∧
    fwupMagic = "FWUP".data.map Char.toNat ∧
    header 0 = some (fwupMagic ++ [0, 0, 0, 0]) := by
  have h' : L < 4294967296 := lt_of_lt_of_le h (by norm_num)
  have hH : header L =
      some (fwupMagic ++ [L % 256, L / 256 % 256, L / 256 ^ 2 % 256, L / 256 ^ 3 % 256]) := by
    simp [header, struct_pack_u32le, h, h']
  refine ⟨hH, ?_, by decide, by decide⟩
  intro hd hhd
  rw [hH] at hhd
  have hhd' : fwupMagic ++ [L % 256, L / 256 % 256, L / 256 ^ 2 % 256, L / 256 ^ 3 % 256] = hd :=
    Option.some.inj hhd
  subst hhd'
  refine ⟨by simp [fwupMagic], by simp [fwupMagic], ?_, ?_⟩
  · intro b hb
    simp [fwupMagic] at hb
    rcases hb with hb | hb | hb | hb <;> subst hb <;> exact Nat.mod_lt _ (by norm_num)
  · show (List.drop 4 (fwupMagic ++ _)).foldr _ 0 = L
    simp only [fwupMagic, List.cons_append, List.nil_append, List.drop_succ_cons,
      List.drop_zero, List.foldr_cons, List.foldr_nil]
    norm_num at h ⊢
    omega

/-- Witness for C8 at `L = 16` (and `L = 0` through the last conjunct). -/
theorem c8_header_format_witness :
    header 16 =
      some (fwupMagic ++ [16 % 256, 16 / 256 % 256, 16 / 256 ^ 2 % 256, 16 / 256 ^ 3 % 256]) ∧
    (∀ hd, header 16 = some hd →
      hd.length = 8 ∧ hd.take 4 = fwupMagic ∧
      (∀ b ∈ hd.drop 4, b < 256) ∧
      (hd.drop 4).foldr (fun b acc => b + 256 * acc) 0 = 16) ∧
    fwupMagic = "FWUP".data.map Char.toNat ∧
    header 0 = some (fwupMagic ++ [0, 0, 0, 0]) :=
  c8_header_format 16 (by norm_num)

/-! ## C4 -/

/-- C4 counterexample: the read `b" "` (one space byte) yields a byte and
decodes to the non-empty text `" "`, yet `read_status` returns `None` —
with no transport Timeout involved — because the code strips the text and
returns `msg or None`.  This refutes "returns the decoded text whenever the
timed read yields any bytes" and "returns nothing exactly when the
transport reported Timeout". -/
theorem c4_counterexample :
    (([32] : List Nat) ≠ []) ∧
    utf8DecodeIgnore [32] = [' '] ∧
    read_status (.ok [32]) true ≠ .ok (some (utf8DecodeIgnore [32])) ∧
    read_status (.ok [32]) true = .ok none := by
  refine ⟨by decide, by rfl, ?_, by rfl⟩
  intro hcontra
  exact Option.noConfusion (Except.ok.inj hcontra)

/-- C4 amended: `read_status` returns the stripped decoded text when the
read yields bytes whose decoded, stripped text is non-empty; it returns
nothing when the stripped decoded text is empty (including the empty read)
or when the transport reports `errno` of `None`, 110 or 60 under
suppression; any other transport failure propagates as the raised error. -/
theorem c4_read_status_contract (r : ReadOutcome) (suppress : Bool) :
    (∀ data, r = .ok data → pyStrip (utf8DecodeIgnore data) ≠ [] →
      read_status r suppress = .ok (some (pyStrip (utf8DecodeIgnore data)))) ∧
    (∀ data, r = .ok data → pyStrip (utf8DecodeIgnore data) = [] →
      read_status r suppress = .ok none) ∧
    (∀ e, r = .err e → suppress = true →
      (e.errno = none ∨ e.errno = some 110 ∨ e.errno = some 60) →
      read_status r suppress = .ok none) ∧
    (∀ e, r = .err e →
      ¬ (e.errno = none ∨ e.errno = some 110 ∨ e.errno = some 60) →
      read_status r suppress = .error e) := by
  refine ⟨?_, ?_, ?_, ?_⟩
  · rintro data rfl hne
    rcases data with _ | ⟨b, bs⟩
    · exact absurd rfl hne
    · simp only [read_status, List.isEmpty_cons, if_false, Bool.false_eq_true, ite_false]
      simp [List.isEmpty_iff, hne]
  · rintro data rfl hempty
    rcases data with _ | ⟨b, bs⟩
    · simp [read_status]
    · simp [read_status, List.isEmpty_iff, hempty]
  · rintro e rfl rfl htimeout
    rcases htimeout with hn | h110 | h60
    · simp [read_status, hn]
    · simp [read_status, h110]
    · simp [read_status, h60]
  · rintro e rfl hother
    push_neg at hother
    obtain ⟨hn, h110, h60⟩ := hother
    simp [read_status, hn, h110, h60]

/-- Witness for C4's amended contract, exercising all four cases at
concrete inputs: a read of `b"OK\r\n"`, a whitespace-only read, a timed-out
read (`errno` 110), and a non-timeout error (`errno` 5). -/
theorem c4_read_status_contract_witness :
    read_status (.ok (asciiBytes "OK\r\n")) true = .ok (some ("OK".data)) ∧
    read_status (.ok [32, 32]) true = .ok none ∧
    read_status timeoutRead true = .ok none ∧
    read_status (.err ⟨some 5⟩) true = .error ⟨some 5⟩ := by
  refine ⟨?_, ?_, ?_, ?_⟩
  · exact (c4_read_status_contract (.ok (asciiBytes "OK\r\n")) true).1 _ rfl (by decide)
  · exact (c4_read_status_contract (.ok [32, 32]) true).2.1 _ rfl (by decide)
  · exact (c4_read_status_contract timeoutRead true).2.2.1 _ rfl rfl (by decide)
  · exact (c4_read_status_contract (.err ⟨some 5⟩) true).2.2.2 _ rfl (by decide)

/-! ## C1 -/

/-- C1 (code bug): a timed-out poll during the HeaderSent-phase wait for
`"HEADER_OK 16"` raises `NameError` — line 210 calls bare `sleep(0.1)` but
only `time` is imported — instead of sleeping and retrying.  By contrast,
the refactored `wait_for_status` used by the erase waits really does absorb
a timed-out poll and succeed once the marker text arrives. -/
theorem c1_header_wait_name_error :
    header_wait [] ("HEADER_OK 16".data) [timeoutRead] = .error .nameError ∧
    header_wait [] ("HEADER_OK 16".data)
      [timeoutRead, .ok (asciiBytes "HEADER_OK 16")] = .error .nameError ∧
    wait_for_status [] ("HEADER_OK 16".data)
      [timeoutRead, .ok (asciiBytes "HEADER_OK 16")] =
      .ok (some ⟨"HEADER_OK 16".data, [], []⟩) :=
  ⟨rfl, rfl, rfl⟩

/-! ## C2 -/

/-- C2 (code bug): the device sends `"ERASE_STARTERASE_DONE"` in one read
during the `ERASE_START` wait.  That wait matches the prefix and computes
the trimmed remainder `"ERASE_DONE"` — but `wait_for_status` returns `None`
and `upload_file` passes its own unchanged `status_buffer` to the
`ERASE_DONE` wait, so with no further transport reads that second wait is
still blocked (`.ok none`): `"ERASE_DONE"` is NOT present in the buffer the
second wait uses. -/
theorem c2_trimmed_buffer_discarded :
    erase_phase [] [.ok (asciiBytes "ERASE_STARTERASE_DONE")] =
      .ok (some (⟨"ERASE_STARTERASE_DONE".data, "ERASE_DONE".data, []⟩, none)) ∧
    ¬ ("ERASE_DONE".data) <:+: ([] : List Char) :=
  ⟨rfl, by decide⟩

/-! ## C3 -/

/-- C3 counterexample: with the default 10000 ms operation timeout, polls
timing out at 300 ms and 10001 ms elapsed, the completion wait ends with no
acknowledgement — and the session then returns normally with exit code 0,
not the claimed failure with a non-zero outcome. -/
theorem c3_counterexample :
    completion_wait 10000 [(timeoutRead, 300), (timeoutRead, 10001)] = .ok .timedOut ∧
    completion_to_run (completion_wait 10000 [(timeoutRead, 300), (timeoutRead, 10001)]) =
      .exitCode 0 ∧
    ∀ n, completion_to_run (completion_wait 10000 [(timeoutRead, 300), (timeoutRead, 10001)]) =
      .exitCode n → n = 0 := by
  refine ⟨rfl, rfl, ?_⟩
  intro n hn
  exact (RunOutcome.exitCode.inj hn).symm

/-- C3 amended: the completion loop polls repeatedly, ignoring timed-out
reads while the elapsed time is within the deadline; a non-empty message
ends the loop as acknowledged with that message; once the deadline has
elapsed with no message the loop ends with no acknowledgement and the run
terminates normally with exit code 0 (no failure outcome). -/
theorem c3_completion_behaviour (t : Nat) (r : ReadOutcome) (el : Nat)
    (rest : List (ReadOutcome × Nat)) (s : List Char) :
    (read_status r true = .ok (some s) →
      completion_wait t ((r, el) :: rest) = .ok (.acked s)) ∧
    (read_status r true = .ok none → el ≤ t →
      completion_wait t ((r, el) :: rest) = completion_wait t rest) ∧
    (read_status r true = .ok none → t < el →
      completion_wait t ((r, el) :: rest) = .ok .timedOut ∧
      completion_to_run (completion_wait t ((r, el) :: rest)) = .exitCode 0) := by
  refine ⟨?_, ?_, ?_⟩
  · intro hread
    simp [completion_wait, hread]
  · intro hread hel
    simp [completion_wait, hread, Nat.not_lt.mpr hel]
  · intro hread hel
    constructor
    · simp [completion_wait, hread, hel]
    · simp [completion_wait, completion_to_run, hread, hel]

/-- Witness for C3's amended behaviour: a timed-out poll within the
deadline is absorbed; a message ends the wait as acknowledged; past the
deadline the wait times out and the run exits with code 0. -/
theorem c3_completion_behaviour_witness :
    (completion_wait 10000 [(timeoutRead, 300), (.ok (asciiBytes "OK"), 600)] =
      completion_wait 10000 [(.ok (asciiBytes "OK"), 600)]) ∧
    (completion_wait 10000 [(.ok (asciiBytes "OK"), 600)] = .ok (.acked "OK".data)) ∧
    (completion_wait 10000 [(timeoutRead, 10001)] = .ok .timedOut ∧
      completion_to_run (completion_wait 10000 [(timeoutRead, 10001)]) = .exitCode 0) := by
  refine ⟨?_, ?_, ?_⟩
  · exact (c3_completion_behaviour 10000 timeoutRead 300
      [(.ok (asciiBytes "OK"), 600)] []).2.1 rfl (by norm_num)
  · exact (c3_completion_behaviour 10000 (.ok (asciiBytes "OK")) 600 [] ("OK".data)).1 rfl
  · exact (c3_completion_behaviour 10000 timeoutRead 10001 [] []).2.2 rfl (by norm_num)

/-! ## C7 helper lemmas -/

/-- One unfolding of the chunk loop while bytes remain. -/
lemma chunk_writes_step (data : List Nat) (N b : Nat) (hlt : b < data.length) (hN : 0 < N) :
    chunk_writes data N b =
      (b, (data.drop b).take N) ::
        chunk_writes data N (b + ((data.drop b).take N).length) := by
  rw [chunk_writes]
  rw [dif_pos ⟨hlt, hN⟩]

/-- The chunk loop stops once `bytes_sent` reaches the payload length. -/
lemma chunk_writes_stop (data : List Nat) (N b : Nat)
    (h : ¬ (b < data.length ∧ 0 < N)) :
    chunk_writes data N b = [] := by
  rw [chunk_writes]
  rw [dif_neg h]

/-- Ceiling-division step used by the write-count proof. -/
lemma ceil_div_step (m N : Nat) (hN : 0 < N) (hm : 0 < m) :
    (m - min N m + N - 1) / N + 1 = (m + N - 1) / N := by
  by_cases hle : m ≤ N
  · have h1 : m - min N m = 0 := by omega
    have h2 : m + N - 1 = (m - 1) + N := by omega
    rw [h1, h2, Nat.add_div_right _ hN]
    have h3 : (0 + N - 1) / N = 0 := Nat.div_eq_of_lt (by omega)
    have h4 : (m - 1) / N = 0 := Nat.div_eq_of_lt (by omega)
    omega
  · have h1 : m - min N m = m - N := by omega
    have h2 : m - N + N - 1 = m - 1 := by omega
    have h3 : m + N - 1 = (m - 1) + N := by omega
    rw [h1, h2, h3, Nat.add_div_right _ hN]

/-- The chunk loop performs exactly `ceil((L - b) / N)` writes. -/
lemma chunk_writes_length (data : List Nat) (N : Nat) (hN : 0 < N) (b : Nat) :
    (chunk_writes data N b).length = (data.length - b + N - 1) / N := by
  have key : ∀ m b, data.length - b = m →
      (chunk_writes data N b).length = (data.length - b + N - 1) / N := by
    intro m
    induction m using Nat.strong_induction_on with
    | _ m ih =>
      intro b hb
      by_cases hlt : b < data.length
      · rw [chunk_writes_step data N b hlt hN, List.length_cons]
        have hcl : ((data.drop b).take N).length = min N (data.length - b) := by
          simp [List.length_take, List.length_drop]
        rw [ih (data.length - (b + ((data.drop b).take N).length)) (by omega) _ rfl]
        rw [hcl]
        have harg : data.length - (b + min N (data.length - b)) =
            data.length - b - min N (data.length - b) := by omega
        rw [harg]
        exact ceil_div_step (data.length - b) N hN (by omega)
      · rw [chunk_writes_stop data N b (fun hc => hlt hc.1), List.length_nil]
        have h0 : data.length - b = 0 := by omega
        rw [h0]
        exact (Nat.div_eq_of_lt (by omega)).symm
  exact key (data.length - b) b rfl

/-- Every recorded write is the `take N` slice at its own offset (hence at
most `N` bytes). -/
lemma chunk_writes_sizes (data : List Nat) (N : Nat) :
    ∀ b w, w ∈ chunk_writes data N b →
      w.2.length ≤ N ∧ w.2 = (data.drop w.1).take N := by
  have key : ∀ m b, data.length - b = m → ∀ w, w ∈ chunk_writes data N b →
      w.2.length ≤ N ∧ w.2 = (data.drop w.1).take N := by
    intro m
    induction m using Nat.strong_induction_on with
    | _ m ih =>
      intro b hb w hw
      by_cases hc : b < data.length ∧ 0 < N
      · rw [chunk_writes_step data N b hc.1 hc.2] at hw
        rcases List.mem_cons.mp hw with hw | hw
        · subst hw
          refine ⟨?_, rfl⟩
          simp only [List.length_take, List.length_drop]
          omega
        · have hcl : ((data.drop b).take N).length = min N (data.length - b) := by
            simp [List.length_take, List.length_drop]
          exact ih (data.length - (b + ((data.drop b).take N).length)) (by omega) _ rfl w hw
      · rw [chunk_writes_stop data N b hc] at hw
        exact absurd hw (List.not_mem_nil w)
  exact fun b => key (data.length - b) b rfl

/-- Offsets are chained: each write starts where the previous one's
reported byte count left off. -/
lemma chunk_writes_chained (data : List Nat) (N : Nat) :
    ∀ b, chained b (chunk_writes data N b) := by
  have key : ∀ m b, data.length - b = m → chained b (chunk_writes data N b) := by
    intro m
    induction m using Nat.strong_induction_on with
    | _ m ih =>
      intro b hb
      by_cases hc : b < data.length ∧ 0 < N
      · rw [chunk_writes_step data N b hc.1 hc.2]
        have hcl : ((data.drop b).take N).length = min N (data.length - b) := by
          simp [List.length_take, List.length_drop]
        exact ⟨rfl, ih (data.length - (b + ((data.drop b).take N).length)) (by omega) _ rfl⟩
      · rw [chunk_writes_stop data N b hc]
        trivial
  exact fun b => key (data.length - b) b rfl

/-- The claim's concrete instance: payload length 10000, chunk size 4096
gives exactly three writes of sizes 4096, 4096, 1808 at offsets 0, 4096,
8192. -/
lemma chunk_writes_concrete :
    (chunk_writes (List.replicate 10000 0) 4096 0).map (fun w => (w.1, w.2.length)) =
      [(0, 4096), (4096, 4096), (8192, 1808)] := by
  have e1 := chunk_writes_step (List.replicate 10000 (0 : Nat)) 4096 0
    (by rw [List.length_replicate]; norm_num) (by norm_num)
  have e2 := chunk_writes_step (List.replicate 10000 (0 : Nat)) 4096 4096
    (by rw [List.length_replicate]; norm_num) (by norm_num)
  have e3 := chunk_writes_step (List.replicate 10000 (0 : Nat)) 4096 8192
    (by rw [List.length_replicate]; norm_num) (by norm_num)
  have e4 := chunk_writes_stop (List.replicate 10000 (0 : Nat)) 4096 10000
    (by rw [List.length_replicate]; norm_num)
  simp only [List.drop_replicate, List.take_replicate, List.length_replicate] at e1 e2 e3 e4
  norm_num at e1 e2 e3 e4
  rw [e1, e2, e3, e4]
  simp only [List.map_cons, List.map_nil, List.length_replicate]

/-! ## C7 -/

/-- C7: with a transport reporting each chunk fully written, the chunk loop
performs exactly `ceil(L / N)` writes, each the at-most-`N`-byte slice of
the payload at its own offset, with consecutive offsets advanced by exactly
the reported (= sliced) byte count starting from 0; in particular L=10000,
N=4096 gives exactly 3 writes of sizes 4096, 4096, 1808 at offsets 0, 4096,
8192. -/
theorem c7_chunking (data : List Nat) (N : Nat) (hN : 0 < N) :
    (chunk_writes data N 0).length = (data.length + N - 1) / N ∧
    (∀ w ∈ chunk_writes data N 0, w.2.length ≤ N ∧ w.2 = (data.drop w.1).take N) ∧
    chained 0 (chunk_writes data N 0) ∧
    (chunk_writes (List.replicate 10000 0) 4096 0).map (fun w => (w.1, w.2.length)) =
      [(0, 4096), (4096, 4096), (8192, 1808)] := by
  refine ⟨?_, fun w hw => chunk_writes_sizes data N 0 w hw,
    chunk_writes_chained data N 0, chunk_writes_concrete⟩
  have := chunk_writes_length data N hN 0
  simpa using this

/-- Witness for C7 at a 10-byte payload with chunk size 4
(`ceil(10/4) = 3` writes). -/
theorem c7_chunking_witness :
    (chunk_writes (List.replicate 10 0) 4 0).length =
      ((List.replicate (10 : Nat) (0 : Nat)).length + 4 - 1) / 4 ∧
    (∀ w ∈ chunk_writes (List.replicate 10 0) 4 0,
      w.2.length ≤ 4 ∧ w.2 = ((List.replicate (10 : Nat) (0 : Nat)).drop w.1).take 4) ∧
    chained 0 (chunk_writes (List.replicate 10 0) 4 0) ∧
    (chunk_writes (List.replicate 10000 0) 4096 0).map (fun w => (w.1, w.2.length)) =
      [(0, 4096), (4096, 4096), (8192, 1808)] :=
  c7_chunking (List.replicate 10 0) 4 (by norm_num)

/-! ## C10 -/

/-- C10: provided every transport write reports at least one byte written,
the chunk loop terminates within `total_len - start + 1` iterations
(`bytes_sent` strictly increases each round); with a write that reports
zero bytes the loop never terminates, no matter how many iterations are
inspected. -/
theorem c10_termination (total_len : Nat) (report : Nat → Nat)
    (hrep : ∀ b, 1 ≤ report b) :
    (∀ b, ∃ r, chunk_loop_fuel total_len report b (total_len - b + 1) = some r) ∧
    (∀ b fuel, b < total_len →
      chunk_loop_fuel total_len report b (fuel + 1) =
        chunk_loop_fuel total_len report (b + report b) fuel) ∧
    (∀ fuel b, b < total_len →
      chunk_loop_fuel total_len (fun _ => 0) b fuel = none) := by
  refine ⟨?_, ?_, ?_⟩
  · have key : ∀ n b, total_len - b ≤ n →
        ∃ r, chunk_loop_fuel total_len report b (n + 1) = some r := by
      intro n
      induction n with
      | zero =>
        intro b hb
        have hnot : ¬ b < total_len := by omega
        exact ⟨b, by simp [chunk_loop_fuel, hnot]⟩
      | succ n ih =>
        intro b hb
        by_cases hlt : b < total_len
        · have h1 : total_len - (b + report b) ≤ n := by
            have := hrep b
            omega
          obtain ⟨r, hr⟩ := ih (b + report b) h1
          exact ⟨r, by simpa [chunk_loop_fuel, hlt] using hr⟩
        · exact ⟨b, by simp [chunk_loop_fuel, hlt]⟩
    exact fun b => key (total_len - b) b le_rfl
  · intro b fuel hlt
    simp [chunk_loop_fuel, hlt]
  · intro fuel
    induction fuel with
    | zero => intro b hb; simp [chunk_loop_fuel]
    | succ n ih =>
      intro b hb
      have := ih b hb
      simpa [chunk_loop_fuel, hb] using this

/-- Witness for C10 at `total_len = 3` with a transport reporting one byte
per write: the loop finishes within 4 inspected iterations. -/
theorem c10_termination_witness :
    ∃ r, chunk_loop_fuel 3 (fun _ => 1) 0 (3 - 0 + 1) = some r :=
  (c10_termination 3 (fun _ => 1) (fun _ => le_rfl)).1 0

/-! ## C9 helper lemmas -/

/-- Once all bytes are reported written, the transfer loop exits with the
current state, whatever events remain. -/
lemma transfer_loop_done (data : List Nat) (cs : Nat) (events : List IterEvent)
    (st : TransferState) (h : ¬ st.bytes_sent < data.length) :
    transfer_loop data cs events st = some st := by
  cases events with
  | nil => rw [transfer_loop, if_neg h]
  | cons ev rest => rw [transfer_loop, if_neg h]

/-- With bytes still to send and the event script exhausted, the loop is
still running. -/
lemma transfer_loop_out (data : List Nat) (cs : Nat) (st : TransferState)
    (h : st.bytes_sent < data.length) :
    transfer_loop data cs [] st = none := by
  rw [transfer_loop, if_pos h]

/-- One iteration of the transfer loop while bytes remain. -/
lemma transfer_loop_cons (data : List Nat) (cs : Nat) (ev : IterEvent)
    (rest : List IterEvent) (st : TransferState) (h : st.bytes_sent < data.length) :
    transfer_loop data cs (ev :: rest) st =
      transfer_loop data cs rest
        { bytes_sent := st.bytes_sent + ev.written
          status := transfer_read st.status ev.poll
          status_buffer := st.status_buffer
          writes := st.writes ++ [(st.bytes_sent, ((data.drop st.bytes_sent).take cs).length)]
          printed := st.printed ++
            (match transfer_read st.status ev.poll with | some s => [s] | none => []) } := by
  rw [transfer_loop, if_pos h]

/-- The transfer loop never changes the phase-control `status_buffer`. -/
lemma transfer_loop_buffer (data : List Nat) (cs : Nat) :
    ∀ (events : List IterEvent) (st r : TransferState),
      transfer_loop data cs events st = some r → r.status_buffer = st.status_buffer := by
  intro events
  induction events with
  | nil =>
    intro st r h
    by_cases hlt : st.bytes_sent < data.length
    · rw [transfer_loop_out data cs st hlt] at h
      exact absurd h (by simp)
    · rw [transfer_loop_done data cs [] st hlt] at h
      rw [← Option.some.inj h]
  | cons ev rest ih =>
    intro st r h
    by_cases hlt : st.bytes_sent < data.length
    · rw [transfer_loop_cons data cs ev rest st hlt] at h
      have hbuf := ih _ _ h
      simpa using hbuf
    · rw [transfer_loop_done data cs (ev :: rest) st hlt] at h
      rw [← Option.some.inj h]

/-- The reported write counts alone determine the write trace and the byte
progression: poll outcomes (including raised errors) never affect them. -/
lemma transfer_loop_writes_only (data : List Nat) (cs : Nat) :
    ∀ (events1 events2 : List IterEvent) (st1 st2 : TransferState),
      events1.map IterEvent.written = events2.map IterEvent.written →
      st1.bytes_sent = st2.bytes_sent → st1.writes = st2.writes →
      ∀ r1 r2, transfer_loop data cs events1 st1 = some r1 →
        transfer_loop data cs events2 st2 = some r2 →
        r1.bytes_sent = r2.bytes_sent ∧ r1.writes = r2.writes := by
  intro events1
  induction events1 with
  | nil =>
    intro events2 st1 st2 hmap hb hw r1 r2 h1 h2
    have hev2 : events2 = [] := by
      cases events2 with
      | nil => rfl
      | cons e es => simp at hmap
    subst hev2
    by_cases hlt : st1.bytes_sent < data.length
    · rw [transfer_loop_out data cs st1 hlt] at h1
      exact absurd h1 (by simp)
    · have hlt2 : ¬ st2.bytes_sent < data.length := by omega
      rw [transfer_loop_done data cs [] st1 hlt] at h1
      rw [transfer_loop_done data cs [] st2 hlt2] at h2
      obtain rfl : st1 = r1 := Option.some.inj h1
      obtain rfl : st2 = r2 := Option.some.inj h2
      exact ⟨hb, hw⟩
  | cons ev1 rest1 ih =>
    intro events2 st1 st2 hmap hb hw r1 r2 h1 h2
    cases events2 with
    | nil => simp at hmap
    | cons ev2 rest2 =>
      simp only [List.map_cons, List.cons.injEq] at hmap
      obtain ⟨hevw, hmaps⟩ := hmap
      by_cases hlt : st1.bytes_sent < data.length
      · have hlt2 : st2.bytes_sent < data.length := by omega
        rw [transfer_loop_cons data cs ev1 rest1 st1 hlt] at h1
        rw [transfer_loop_cons data cs ev2 rest2 st2 hlt2] at h2
        exact ih rest2 _ _ hmaps (by simp [hb, hevw]) (by simp [hb, hw]) r1 r2 h1 h2
      · have hlt2 : ¬ st2.bytes_sent < data.length := by omega
        rw [transfer_loop_done data cs (ev1 :: rest1) st1 hlt] at h1
        rw [transfer_loop_done data cs (ev2 :: rest2) st2 hlt2] at h2
        obtain rfl : st1 = r1 := Option.some.inj h1
        obtain rfl : st2 = r2 := Option.some.inj h2
        exact ⟨hb, hw⟩

/-! ## C9 -/

/-- C9: the per-chunk best-effort status read never aborts the transfer —
whenever the loop finishes, the phase-control buffer is exactly as it was
when the transfer began; a timed-out read makes `status` empty (nothing
printed); a raised non-timeout transport error is swallowed (`status`
keeps its previous value, no propagation); and the write trace and byte
progression depend only on the reported write counts, not on any poll
outcome. -/
theorem c9_transfer_observability (data : List Nat) (cs : Nat)
    (events : List IterEvent) (st r : TransferState)
    (h : transfer_loop data cs events st = some r) :
    r.status_buffer = st.status_buffer ∧
    (∀ prev e, ¬ (USBError.errno e = none ∨ USBError.errno e = some 110 ∨
        USBError.errno e = some 60) →
      transfer_read prev (.err e) = prev) ∧
    (∀ prev, transfer_read prev timeoutRead = none) ∧
    (∀ events2 st2 r2, events2.map IterEvent.written = events.map IterEvent.written →
      st2.bytes_sent = st.bytes_sent → st2.writes = st.writes →
      transfer_loop data cs events2 st2 = some r2 →
      r2.bytes_sent = r.bytes_sent ∧ r2.writes = r.writes) := by
  refine ⟨transfer_loop_buffer data cs events st r h, ?_, ?_, ?_⟩
  · intro prev e he
    push_neg at he
    obtain ⟨hn, h110, h60⟩ := he
    simp [transfer_read, read_status, hn, h110, h60]
  · intro prev
    simp [transfer_read, read_status, timeoutRead]
  · intro events2 st2 r2 hmap hb hw h2
    exact transfer_loop_writes_only data cs events2 events st2 st hmap hb hw r2 r h2 h

/-- Witness for C9: a 3-byte payload with chunk size 2; the first
iteration's poll raises a non-timeout error (errno 5, swallowed), the
second times out; the loop completes with the buffer `"X"` untouched and
writes `[(0,2),(2,1)]`. -/
theorem c9_transfer_observability_witness :
    (TransferState.mk 3 none ("X".data) [(0, 2), (2, 1)] []).status_buffer =
      (TransferState.mk 0 none ("X".data) [] []).status_buffer ∧
    (∀ prev e, ¬ (USBError.errno e = none ∨ USBError.errno e = some 110 ∨
        USBError.errno e = some 60) →
      transfer_read prev (.err e) = prev) ∧
    (∀ prev, transfer_read prev timeoutRead = none) ∧
    (∀ events2 st2 r2,
      events2.map IterEvent.written =
        ([⟨2, .err ⟨some 5⟩⟩, ⟨1, timeoutRead⟩] : List IterEvent).map IterEvent.written →
      st2.bytes_sent = (TransferState.mk 0 none ("X".data) [] []).bytes_sent →
      st2.writes = (TransferState.mk 0 none ("X".data) [] []).writes →
      transfer_loop [1, 2, 3] 2 events2 st2 = some r2 →
      r2.bytes_sent = (TransferState.mk 3 none ("X".data) [(0, 2), (2, 1)] []).bytes_sent ∧
      r2.writes = (TransferState.mk 3 none ("X".data) [(0, 2), (2, 1)] []).writes) :=
  c9_transfer_observability [1, 2, 3] 2 [⟨2, .err ⟨some 5⟩⟩, ⟨1, timeoutRead⟩]
    ⟨0, none, "X".data, [], []⟩ ⟨3, none, "X".data, [(0, 2), (2, 1)], []⟩ rfl

/-! ## C5 helper lemmas -/

/-- When the target is already in the buffer, the wait exits at once —
consuming no polls — and trims past the last occurrence. -/
lemma wait_for_status_found (buffer target : List Char) (polls : List ReadOutcome)
    (hb : target <:+: buffer) :
    wait_for_status buffer target polls =
      .ok (some ⟨buffer, buffer.drop (rindexOf buffer target + target.length), polls⟩) := by
  cases polls with
  | nil =>
    rw [wait_for_status, if_pos hb]
    simp [end_index, hb]
  | cons p rest =>
    rw [wait_for_status, if_pos hb]
    simp [end_index, hb]

/-- One loop iteration while the target is absent from the buffer. -/
lemma wait_for_status_not_found (buffer target : List Char) (p : ReadOutcome)
    (rest : List ReadOutcome) (hb : ¬ target <:+: buffer) :
    wait_for_status buffer target (p :: rest) =
      match read_status p true with
      | .error e => .error e
      | .ok (some s) => wait_for_status (buffer ++ s) target rest
      | .ok none => wait_for_status buffer target rest := by
  rw [wait_for_status, if_neg hb]

/-- Unfolding `pollsTexts` over the head poll. -/
lemma pollsTexts_cons (p : ReadOutcome) (rest : List ReadOutcome) :
    pollsTexts (p :: rest) =
      match read_status p true with
      | .ok (some s) => s :: pollsTexts rest
      | .ok none => pollsTexts rest
      | .error _ => pollsTexts rest := by
  unfold pollsTexts
  rw [List.filterMap_cons]
  cases hread : read_status p true with
  | ok s => cases s <;> simp [hread]
  | error e => simp [hread]

/-! ## C5 -/

/-- C5: for every marker wait, as long as no poll raises a non-timeout
error, the wait succeeds exactly when the marker occurs as a substring of
the starting buffer followed by the concatenation of the texts returned by
successive polls — even when the marker's bytes are split across reads —
and it stops at the FIRST poll after which the marker is present: the exit
buffer is the initial buffer plus the first `k` polls' texts, the marker is
an infix of it, the remaining polls are untouched, and for every `j < k`
the marker was not yet an infix. -/
theorem c5_marker_across_reads (target : List Char) (polls : List ReadOutcome)
    (buffer : List Char) (hok : ∀ p ∈ polls, pollOk p = true)
    (h : target <:+: buffer ++ (pollsTexts polls).flatten) :
    ∃ ex k, wait_for_status buffer target polls = .ok (some ex) ∧
      k ≤ polls.length ∧
      ex.buf = buffer ++ (pollsTexts (polls.take k)).flatten ∧
      ex.rest = polls.drop k ∧
      target <:+: ex.buf ∧
      ∀ j, j < k → ¬ target <:+: buffer ++ (pollsTexts (polls.take j)).flatten := by
  revert hok h
  induction polls generalizing buffer with
  | nil =>
    intro hok h
    have hb : target <:+: buffer := by simpa [pollsTexts] using h
    refine ⟨⟨buffer, buffer.drop (rindexOf buffer target + target.length), []⟩, 0,
      wait_for_status_found buffer target [] hb, by simp, by simp [pollsTexts], by simp,
      hb, fun j hj => absurd hj (Nat.not_lt_zero j)⟩
  | cons p rest ih =>
    intro hok h
    by_cases hb : target <:+: buffer
    · refine ⟨⟨buffer, buffer.drop (rindexOf buffer target + target.length), p :: rest⟩, 0,
        wait_for_status_found buffer target (p :: rest) hb, by simp,
        by simp [pollsTexts], by simp, hb, fun j hj => absurd hj (Nat.not_lt_zero j)⟩
    · have hpok : pollOk p = true := hok p (List.mem_cons_self p rest)
      have hok' : ∀ q ∈ rest, pollOk q = true := fun q hq => hok q (List.mem_cons_of_mem p hq)
      cases hread : read_status p true with
      | error e => simp [pollOk, hread] at hpok
      | ok s =>
        cases s with
        | none =>
          have hh : target <:+: buffer ++ (pollsTexts rest).flatten := by
            have h' := h
            rw [pollsTexts_cons] at h'
            simpa [hread] using h'
          obtain ⟨ex, k, hwait, hk, hbuf, hrest, hinf, hmin⟩ := ih buffer hok' hh
          refine ⟨ex, k + 1, ?_, by simp only [List.length_cons]; omega, ?_, ?_, hinf, ?_⟩
          · rw [wait_for_status_not_found buffer target p rest hb, hread]
            exact hwait
          · simpa [List.take_succ_cons, pollsTexts_cons, hread] using hbuf
          · simpa [List.drop_succ_cons] using hrest
          · intro j hj
            cases j with
            | zero => simpa [pollsTexts] using hb
            | succ j' =>
              have hm := hmin j' (by omega)
              simpa [List.take_succ_cons, pollsTexts_cons, hread] using hm
        | some s =>
          have hh : target <:+: (buffer ++ s) ++ (pollsTexts rest).flatten := by
            have h' := h
            rw [pollsTexts_cons] at h'
            simp only [hread] at h'
            simpa [List.append_assoc] using h'
          obtain ⟨ex, k, hwait, hk, hbuf, hrest, hinf, hmin⟩ := ih (buffer ++ s) hok' hh
          refine ⟨ex, k + 1, ?_, by simp only [List.length_cons]; omega, ?_, ?_, hinf, ?_⟩
          · rw [wait_for_status_not_found buffer target p rest hb, hread]
            exact hwait
          · simpa [List.take_succ_cons, pollsTexts_cons, hread, List.append_assoc] using hbuf
          · simpa [List.drop_succ_cons] using hrest
          · intro j hj
            cases j with
            | zero => simpa [pollsTexts] using hb
            | succ j' =>
              have hm := hmin j' (by omega)
              simpa [List.take_succ_cons, pollsTexts_cons, hread, List.append_assoc] using hm

/-- Witness for C5 at the claim's concrete split: poll 1 yields `"HEAD"`,
poll 2 yields `"ER_OK 10"`, and the wait for `"HEADER_OK 10"` succeeds on
their concatenation. -/
theorem c5_marker_across_reads_witness :
    ∃ ex k, wait_for_status [] ("HEADER_OK 10".data)
        [.ok (asciiBytes "HEAD"), .ok (asciiBytes "ER_OK 10")] = .ok (some ex) ∧
      k ≤ ([ReadOutcome.ok (asciiBytes "HEAD"),
            ReadOutcome.ok (asciiBytes "ER_OK 10")] : List ReadOutcome).length ∧
      ex.buf = [] ++ (pollsTexts (([ReadOutcome.ok (asciiBytes "HEAD"),
            ReadOutcome.ok (asciiBytes "ER_OK 10")]).take k)).flatten ∧
      ex.rest = ([ReadOutcome.ok (asciiBytes "HEAD"),
            ReadOutcome.ok (asciiBytes "ER_OK 10")]).drop k ∧
      ("HEADER_OK 10".data) <:+: ex.buf ∧
      ∀ j, j < k → ¬ ("HEADER_OK 10".data) <:+:
        [] ++ (pollsTexts (([ReadOutcome.ok (asciiBytes "HEAD"),
            ReadOutcome.ok (asciiBytes "ER_OK 10")]).take j)).flatten :=
  c5_marker_across_reads ("HEADER_OK 10".data)
    [.ok (asciiBytes "HEAD"), .ok (asciiBytes "ER_OK 10")] [] (by decide) (by decide)

end PicoFlashUploader
